import Mathlib

set_option maxRecDepth 100000

/-!
# Verification of the job-board capability-token scheme

A shallow embedding, in Lean 4, of the core of the `devict/job-board`
repository: the HMAC-SHA256 capability signatures over listing identity
fields (`Job.AuthSignature`, `Role.AuthSignature` in `pkg/data/data.go`),
the token-checking middlewares (`requireAuth`, `requireTokenAuth` in
`pkg/server/server.go`), the signed edit-link builders (`SignedJobRoute`,
`SignedRoleRoute`), the update/validation path (`Job.Update`,
`NewJob.Validate`, `Controller.UpdateJob`), the store accessors
(`GetJob`, `GetRole`) and the retention sweeper (the background loop in
`cmd`'s `run`).

Go strings are embedded as lists of byte values (`Bytes := List Nat`,
elements below 256); machine words are `Nat` reduced mod 2^32 where the
source's `uint32` arithmetic wraps.  All definitions are executable, so
concrete scenarios evaluate by `decide`.
-/

/-- A Go string / byte slice: a list of byte values. -/
abbrev Bytes := List Nat

/-- Byte values of a literal, for transcribing the source's string
literals; every literal the source compares or builds here is ASCII, where
code points and UTF-8 bytes coincide. -/
def strBytes (s : String) : Bytes :=
  s.data.map Char.toNat

namespace Sha256

/-- Reduce to a 32-bit word, as Go's `uint32` arithmetic does. -/
def w32 (x : Nat) : Nat := x % 4294967296

/-- Right rotation on 32-bit words. -/
def rotr (n x : Nat) : Nat := w32 ((x >>> n) ||| (x <<< (32 - n)))

/-- The 64 SHA-256 round constants (FIPS 180-4). -/
def K : List Nat :=
  [1116352408, 1899447441, 3049323471, 3921009573, 961987163,
   1508970993, 2453635748, 2870763221, 3624381080, 310598401,
   607225278, 1426881987, 1925078388, 2162078206, 2614888103,
   3248222580, 3835390401, 4022224774, 264347078, 604807628,
   770255983, 1249150122, 1555081692, 1996064986, 2554220882,
   2821834349, 2952996808, 3210313671, 3336571891, 3584528711,
   113926993, 338241895, 666307205, 773529912, 1294757372,
   1396182291, 1695183700, 1986661051, 2177026350, 2456956037,
   2730485921, 2820302411, 3259730800, 3345764771, 3516065817,
   3600352804, 4094571909, 275423344, 430227734, 506948616,
   659060556, 883997877, 958139571, 1322822218, 1537002063,
   1747873779, 1955562222, 2024104815, 2227730452, 2361852424,
   2428436474, 2756734187, 3204031479, 3329325298]

/-- The initial SHA-256 hash value (FIPS 180-4). -/
def H0 : List Nat :=
  [1779033703, 3144134277, 1013904242, 2773480762,
   1359893119, 2600822924, 528734635, 1541459225]

/-- The length-and-one padding SHA-256 appends to a message. -/
def padBytes (len : Nat) : List Nat :=
  let padLen := (55 + 64 - len % 64) % 64 + 1
  0x80 :: List.replicate (padLen - 1) 0 ++
    (List.range 8).map (fun i => (len * 8) >>> ((7 - i) * 8) % 256)

/-- A padded message: the input followed by `padBytes` of its length. -/
def pad (msg : List Nat) : List Nat := msg ++ padBytes msg.length

/-- Big-endian 4-byte groups to 32-bit words. -/
def toWords : List Nat → List Nat
  | a :: b :: c :: d :: rest => (((a * 256 + b) * 256 + c) * 256 + d) :: toWords rest
  | _ => []

/-- Split into 16-word blocks. -/
def toBlocks : List Nat → List (List Nat)
  | w0 :: w1 :: w2 :: w3 :: w4 :: w5 :: w6 :: w7 ::
    w8 :: w9 :: w10 :: w11 :: w12 :: w13 :: w14 :: w15 :: rest =>
    [w0, w1, w2, w3, w4, w5, w6, w7, w8, w9, w10, w11, w12, w13, w14, w15] ::
      toBlocks rest
  | _ => []

/-- The 64-word message schedule of one block. -/
def schedule (block : List Nat) : List Nat :=
  (List.range 64).foldl
    (fun acc i =>
      if i < 16 then acc ++ [block.getD i 0]
      else
        let w15 := acc.getD (i - 15) 0
        let w2 := acc.getD (i - 2) 0
        let s0 := rotr 7 w15 ^^^ rotr 18 w15 ^^^ (w15 >>> 3)
        let s1 := rotr 17 w2 ^^^ rotr 19 w2 ^^^ (w2 >>> 10)
        acc ++ [w32 (acc.getD (i - 16) 0 + s0 + acc.getD (i - 7) 0 + s1)])
    []

/-- One round of the SHA-256 compression function on the 8-word working
state, given the round constant plus scheduled word. -/
def round (st : List Nat) (kw : Nat) : List Nat :=
  match st with
  | [a, b, c, d, e, f, g, h] =>
    let S1 := rotr 6 e ^^^ rotr 11 e ^^^ rotr 25 e
    let ch := (e &&& f) ^^^ ((0xffffffff ^^^ e) &&& g)
    let t1 := w32 (h + S1 + ch + kw)
    let S0 := rotr 2 a ^^^ rotr 13 a ^^^ rotr 22 a
    let mj := (a &&& b) ^^^ (a &&& c) ^^^ (b &&& c)
    let t2 := w32 (S0 + mj)
    [w32 (t1 + t2), a, b, c, w32 (d + t1), e, f, g]
  | other => other

/-- Compress one block into the running hash. -/
def compress (hs : List Nat) (block : List Nat) : List Nat :=
  let st := ((schedule block).zip K).foldl (fun s p => round s (w32 (p.1 + p.2))) hs
  (hs.zip st).map (fun p => w32 (p.1 + p.2))

/-- Words back to big-endian bytes. -/
def wordsToBytes (ws : List Nat) : List Nat :=
  ws.flatMap (fun w => [w >>> 24 % 256, w >>> 16 % 256, w >>> 8 % 256, w % 256])

/-- SHA-256 of a byte string (FIPS 180-4), the digest Go's `crypto/sha256`
computes. -/
def sha256 (msg : Bytes) : Bytes :=
  wordsToBytes ((toBlocks (toWords (pad msg))).foldl compress H0)

/-- HMAC-SHA256 (RFC 2104), the mode `hmac.New(sha256.New, key)` runs in
`crypto/hmac`: keys longer than the 64-byte block are first hashed, the key
is zero-padded to the block size, and the digest is
`H((key xor opad) ++ H((key xor ipad) ++ msg))`. -/
def hmacSha256 (key msg : Bytes) : Bytes :=
  let k0 : List Nat := if key.length > 64 then sha256 key else key
  let kp := k0 ++ List.replicate (64 - k0.length) 0
  let ipadK := kp.map (fun b => b ^^^ 0x36)
  let opadK := kp.map (fun b => b ^^^ 0x5c)
  sha256 (opadK ++ sha256 (ipadK ++ msg))

end Sha256

/-- The URL-safe base64 alphabet (RFC 4648 section 5), as byte values:
`A`-`Z`, `a`-`z`, `0`-`9`, `-`, `_`. -/
def b64urlChar (i : Nat) : Nat :=
  if i < 26 then 65 + i
  else if i < 52 then 97 + (i - 26)
  else if i < 62 then 48 + (i - 52)
  else if i = 62 then 45
  else 95

/-- Base64 encoding with the URL-safe alphabet and `=` padding: what Go's
`base64.URLEncoding.EncodeToString` produces. -/
def base64url : Bytes → Bytes
  | a :: b :: c :: rest =>
    let n := (a * 256 + b) * 256 + c
    b64urlChar (n >>> 18) :: b64urlChar (n >>> 12 % 64) ::
      b64urlChar (n >>> 6 % 64) :: b64urlChar (n % 64) :: base64url rest
  | [a, b] =>
    let n := a * 256 + b
    [b64urlChar (n >>> 10), b64urlChar (n >>> 4 % 64), b64urlChar ((n % 16) <<< 2), 61]
  | [a] =>
    [b64urlChar (a >>> 2), b64urlChar ((a % 4) <<< 4), 61, 61]
  | [] => []

/-! ## Timestamps

`published_at` columns are `TIMESTAMP` values, scanned into `time.Time` in
UTC; the signatures embed `PublishedAt.String()`, Go's default rendering
`"2006-01-02 15:04:05.999999999 -0700 MST"` — for these UTC values
`"YYYY-MM-DD hh:mm:ss[.fraction] +0000 UTC"` with trailing zeros of the
fractional second trimmed. -/

/-- A UTC timestamp, by civil fields, as the store hands it to the
signature code. -/
structure GoTime where
  year : Nat
  month : Nat
  day : Nat
  hour : Nat
  minute : Nat
  sec : Nat
  nsec : Nat
deriving DecidableEq

/-- Decimal digits of `n`, as ASCII bytes. -/
def decBytes (n : Nat) : Bytes :=
  (Nat.toDigits 10 n).map Char.toNat

/-- Decimal digits left-padded with `0` to width `w`. -/
def padNum (w n : Nat) : Bytes :=
  List.replicate (w - (decBytes n).length) 48 ++ decBytes n

/-- The fractional-second part of Go's time rendering: empty for a whole
second, else a dot and the nanoseconds with trailing zeros trimmed. -/
def fracPart (nsec : Nat) : Bytes :=
  if nsec = 0 then []
  else 46 :: ((padNum 9 nsec).reverse.dropWhile (fun b => b = 48)).reverse

/-- Rendering of `time.Time.String()` for a UTC instant without monotonic reading:
`"YYYY-MM-DD hh:mm:ss[.fraction] +0000 UTC"`. -/
def goTimeString (t : GoTime) : Bytes :=
  padNum 4 t.year ++ strBytes "-" ++ padNum 2 t.month ++ strBytes "-" ++
    padNum 2 t.day ++ strBytes " " ++ padNum 2 t.hour ++ strBytes ":" ++
    padNum 2 t.minute ++ strBytes ":" ++ padNum 2 t.sec ++ fracPart t.nsec ++
    strBytes " +0000 UTC"

/-- Lexicographic order on civil fields: the order `published_at < cutoff`
computes on UTC timestamps. -/
def goTimeLt (s t : GoTime) : Bool :=
  if s.year ≠ t.year then s.year < t.year
  else if s.month ≠ t.month then s.month < t.month
  else if s.day ≠ t.day then s.day < t.day
  else if s.hour ≠ t.hour then s.hour < t.hour
  else if s.minute ≠ t.minute then s.minute < t.minute
  else if s.sec ≠ t.sec then s.sec < t.sec
  else s.nsec < t.nsec

/-- Go's zero `time.Time`: January 1 of year 1, midnight UTC. -/
def zeroTime : GoTime := ⟨1, 1, 1, 0, 0, 0, 0⟩

/-! ## Data model (`pkg/data/data.go`) -/

/-- Go's `sql.NullString`: a string plus a validity flag. -/
structure NullString where
  str : Bytes
  valid : Bool
deriving DecidableEq

/-- A stored job row (`data.Job`). -/
structure Job where
  id : Bytes
  position : Bytes
  organization : Bytes
  url : NullString
  description : NullString
  email : Bytes
  publishedAt : GoTime
deriving DecidableEq

/-- A stored role row (`data.Role`). -/
structure Role where
  id : Bytes
  name : Bytes
  email : Bytes
  phone : NullString
  role : Bytes
  resume : Bytes
  linkedin : NullString
  website : NullString
  github : NullString
  compLow : NullString
  compHigh : NullString
  publishedAt : GoTime
deriving DecidableEq

/-- The zero `data.Job` value, which `GetJob` returns untouched when the
query matches no row. -/
def zeroJob : Job :=
  ⟨[], [], [], ⟨[], false⟩, ⟨[], false⟩, [], zeroTime⟩

/-- The zero `data.Role` value. -/
def zeroRole : Role :=
  ⟨[], [], [], ⟨[], false⟩, [], [], ⟨[], false⟩, ⟨[], false⟩, ⟨[], false⟩,
   ⟨[], false⟩, ⟨[], false⟩, zeroTime⟩

/-- A new-submission job payload (`data.NewJob`): the mutable display
fields plus the creation-only email; no id or timestamp. -/
structure NewJob where
  position : Bytes
  organization : Bytes
  url : Bytes
  description : Bytes
  email : Bytes
deriving DecidableEq

/-- A new-submission role payload (`data.NewRole`). -/
structure NewRole where
  name : Bytes
  email : Bytes
  phone : Bytes
  role : Bytes
  resume : Bytes
  linkedin : Bytes
  website : Bytes
  github : Bytes
  compLow : Bytes
  compHigh : Bytes
deriving DecidableEq

/-- Source `Job.Update`: copy the mutable display fields from the payload, with
the two nullable ones marked valid exactly when non-empty; id, email and
publishedAt are not touched. -/
def Job.update (job : Job) (newParams : NewJob) : Job :=
  { job with
      position := newParams.position
      organization := newParams.organization
      url := ⟨newParams.url, !newParams.url.isEmpty⟩
      description := ⟨newParams.description, !newParams.description.isEmpty⟩ }

/-- Source `Role.Update`: copy the mutable display fields from the payload;
id, email and publishedAt are not touched. -/
def Role.update (role : Role) (newParams : NewRole) : Role :=
  { role with
      name := newParams.name
      role := newParams.role
      resume := newParams.resume
      phone := ⟨newParams.phone, !newParams.phone.isEmpty⟩
      linkedin := ⟨newParams.linkedin, !newParams.linkedin.isEmpty⟩
      website := ⟨newParams.website, !newParams.website.isEmpty⟩
      compLow := ⟨newParams.compLow, !newParams.compLow.isEmpty⟩
      compHigh := ⟨newParams.compHigh, !newParams.compHigh.isEmpty⟩
      github := ⟨newParams.github, !newParams.github.isEmpty⟩ }

/-! ## Capability signatures (`AuthSignature`) -/

/-- The `":"` delimiter of the canonical signing strings. -/
def colonB : Bytes := strBytes ":"

/-- The canonical string `Job.AuthSignature` feeds to the HMAC:
`fmt.Sprintf("%s:%s:%s", job.ID, job.Email, job.PublishedAt.String())`. -/
def jobSigningInput (job : Job) : Bytes :=
  job.id ++ colonB ++ job.email ++ colonB ++ goTimeString job.publishedAt

/-- Source `Job.AuthSignature`: the URL-safe-base64 HMAC-SHA256, keyed by the
secret, of the job's canonical string. -/
def Job.authSignature (job : Job) (secret : Bytes) : Bytes :=
  base64url (Sha256.hmacSha256 secret (jobSigningInput job))

/-- The canonical string `Role.AuthSignature` feeds to the HMAC:
`fmt.Sprintf("%s:%s:%s:%s", role.ID, role.Email,
role.PublishedAt.String(), secret)` — note the fourth segment: the secret
itself is concatenated into the hashed input. -/
def roleSigningInput (role : Role) (secret : Bytes) : Bytes :=
  role.id ++ colonB ++ role.email ++ colonB ++ goTimeString role.publishedAt ++
    colonB ++ secret

/-- Source `Role.AuthSignature`: the URL-safe-base64 HMAC-SHA256, keyed by the
secret, of the role's canonical string (which itself ends in the secret). -/
def Role.authSignature (role : Role) (secret : Bytes) : Bytes :=
  base64url (Sha256.hmacSha256 secret (roleSigningInput role secret))

/-! ## Resource store (`GetJob`, `GetRole`) -/

/-- What one `db.Get` of a `SELECT ... WHERE id = $1` can come back with:
a row, `sql.ErrNoRows`, or some other backend error. -/
inductive DbRes (α : Type) where
  | row (a : α)
  | noRows
  | failure (e : Nat)
deriving DecidableEq

/-- The `jobs`-table lookup behind `GetJob`: the first row whose `id`
matches, `noRows` when none does, or an injected backend failure. -/
def dbGetJob (id : Bytes) (jobs : List Job) (dbErr : Option Nat) : DbRes Job :=
  match dbErr with
  | some e => .failure e
  | none =>
    match jobs.find? (fun j => j.id = id) with
    | some j => .row j
    | none => .noRows

/-- The `roles`-table lookup behind `GetRole`. -/
def dbGetRole (id : Bytes) (roles : List Role) (dbErr : Option Nat) : DbRes Role :=
  match dbErr with
  | some e => .failure e
  | none =>
    match roles.find? (fun r => r.id = id) with
    | some r => .row r
    | none => .noRows

/-- Source `GetJob`: returns the scanned row and an error, except that
`sql.ErrNoRows` is swallowed — a missed lookup yields the zero `Job` and a
nil error; any other backend error is passed through (with the record
still zero, since `db.Get` filled nothing in). -/
def GetJob (id : Bytes) (jobs : List Job) (dbErr : Option Nat) : Job × Option Nat :=
  match dbGetJob id jobs dbErr with
  | .row j => (j, none)
  | .noRows => (zeroJob, none)
  | .failure e => (zeroJob, some e)

/-- Source `GetRole`, same shape as `GetJob`. -/
def GetRole (id : Bytes) (roles : List Role) (dbErr : Option Nat) : Role × Option Nat :=
  match dbGetRole id roles dbErr with
  | .row r => (r, none)
  | .noRows => (zeroRole, none)
  | .failure e => (zeroRole, some e)

/-! ## Token comparison -/

/-- Go's `subtle.ConstantTimeCompare`: 0 when the lengths differ; otherwise OR
together the XOR of every byte pair and report 1 exactly when the
accumulator stayed zero. -/
def constantTimeCompare (x y : Bytes) : Nat :=
  if x.length ≠ y.length then 0
  else if (x.zip y).foldl (fun v p => v ||| (p.1 ^^^ p.2)) 0 = 0 then 1 else 0

/-- Byte positions `subtle.ConstantTimeCompare` examines: none when the
length check fails, else every position — regardless of content. -/
def ctcSteps (x y : Bytes) : Nat :=
  if x.length ≠ y.length then 0 else (x.zip y).length

/-- Byte positions a short-circuiting string equality (Go's `==`/`!=` on
strings) examines when the lengths agree: it stops at the first
mismatch. -/
def shortCircuitSteps : Bytes → Bytes → Nat
  | a :: x, b :: y => if a = b then 1 + shortCircuitSteps x y else 1
  | _, _ => 0

/-- Byte positions Go's string inequality examines: none when the length
check fails, else up to the first mismatch. -/
def goStrEqSteps (x y : Bytes) : Nat :=
  if x.length ≠ y.length then 0 else shortCircuitSteps x y

/-! ## Authorization middlewares (`pkg/server/server.go`) -/

/-- What a middleware run does to the request: abort with a status, or
fall through to the wrapped handler. -/
inductive AuthOutcome where
  | abort (status : Nat)
  | proceed
deriving DecidableEq

/-- Helper `signatureForJob`, which the the early `requireAuth` middleware
calls on the fetched job.
Modelled from the spec: the helper's own body is not among the source
files (only its caller is); per section 4.3 the middleware recomputes
`expected = SignatureEngine.sign(resource, secret)`, which for a job is
`Job.AuthSignature`. -/
def signatureForJob (job : Job) (secret : Bytes) : Bytes :=
  job.authSignature secret

/-- The early middleware `requireAuth(db, secret)`: fetch the job by the
path id (500 on a backend error — `GetJob` has already swallowed
`ErrNoRows`), recompute the signature, and compare with the plain
string inequality `token != expected`; no not-found branch exists, so an
unknown id is checked against the zero record's signature. -/
def requireAuth (jobs : List Job) (secret id token : Bytes)
    (dbErr : Option Nat) : AuthOutcome :=
  match GetJob id jobs dbErr with
  | (_, some _) => .abort 500
  | (job, none) =>
    if token ≠ signatureForJob job secret then .abort 403 else .proceed

/-- The byte positions `requireAuth`'s `token != expected` comparison
examines: the cost of the short-circuiting string equality. -/
def requireAuthCmpSteps (jobs : List Job) (secret id token : Bytes)
    (dbErr : Option Nat) : Nat :=
  match GetJob id jobs dbErr with
  | (_, some _) => 0
  | (job, none) => goStrEqSteps token (signatureForJob job secret)

/-- Source constant `JobRoute = "job"`. -/
def JobRoute : Bytes := strBytes "job"

/-- Source constant `RoleRoute = "role"`. -/
def RoleRoute : Bytes := strBytes "role"

/-- Source `requireTokenAuth(db, secret, authType)` (the jobs-and-roles version):
switch on the route kind; fetch the record (500 on backend error); if the
fetched record's id does not echo the path id — the zero record after a
swallowed `ErrNoRows` — abort 404; otherwise compare the recomputed
signature against the query token with `subtle.ConstantTimeCompare`,
aborting 403 on mismatch. -/
def requireTokenAuth (jobs : List Job) (roles : List Role)
    (secret authType id token : Bytes) (dbErr : Option Nat) : AuthOutcome :=
  if authType = JobRoute then
    match GetJob id jobs dbErr with
    | (_, some _) => .abort 500
    | (job, none) =>
      if job.id ≠ id then .abort 404
      else if constantTimeCompare (job.authSignature secret) token = 0 then
        .abort 403
      else .proceed
  else if authType = RoleRoute then
    match GetRole id roles dbErr with
    | (_, some _) => .abort 500
    | (role, none) =>
      if role.id ≠ id then .abort 404
      else if constantTimeCompare (role.authSignature secret) token = 0 then
        .abort 403
      else .proceed
  else .abort 500

/-- The byte positions `requireTokenAuth`'s comparison examines: zero on
the aborts that precede it, else the cost of `ConstantTimeCompare`. -/
def requireTokenAuthCmpSteps (jobs : List Job) (roles : List Role)
    (secret authType id token : Bytes) (dbErr : Option Nat) : Nat :=
  if authType = JobRoute then
    match GetJob id jobs dbErr with
    | (_, some _) => 0
    | (job, none) =>
      if job.id ≠ id then 0
      else ctcSteps (job.authSignature secret) token
  else if authType = RoleRoute then
    match GetRole id roles dbErr with
    | (_, some _) => 0
    | (role, none) =>
      if role.id ≠ id then 0
      else ctcSteps (role.authSignature secret) token
  else 0

/-! ## URL query escaping (`net/url`) and the signed edit links -/

/-- Bytes `url.QueryEscape` leaves as-is in a query component:
the unreserved ASCII letters, digits, `-`, `_`, `.`, `~`. -/
def isUnreservedQueryByte (b : Nat) : Bool :=
  (65 ≤ b && b ≤ 90) || (97 ≤ b && b ≤ 122) || (48 ≤ b && b ≤ 57) ||
    b = 45 || b = 95 || b = 46 || b = 126

/-- Upper-case hex digit of a value below 16, as a byte. -/
def hexUpper (n : Nat) : Nat :=
  if n < 10 then 48 + n else 55 + n

/-- How `url.QueryEscape` renders one byte: kept, `+` for a space, or a
percent escape. -/
def escapeByte (b : Nat) : Bytes :=
  if isUnreservedQueryByte b then [b]
  else if b = 32 then [43]
  else [37, hexUpper (b >>> 4), hexUpper (b % 16)]

/-- Go's `url.QueryEscape`. -/
def queryEscape (s : Bytes) : Bytes :=
  s.flatMap escapeByte

/-- Value of one hex-digit byte, either case — what `url.QueryUnescape`
accepts after a `%`. -/
def hexVal (c : Nat) : Option Nat :=
  if 48 ≤ c && c ≤ 57 then some (c - 48)
  else if 65 ≤ c && c ≤ 70 then some (c - 55)
  else if 97 ≤ c && c ≤ 102 then some (c - 87)
  else none

/-- Go's `url.QueryUnescape`: decode percent escapes and `+` as space, failing
on a malformed escape — the standard URL query decoding the route layer
applies to `ctx.Query("token")` before the middleware compares it. -/
def queryUnescape : Bytes → Option Bytes
  | [] => some []
  | 37 :: h :: l :: rest =>
    (match hexVal h, hexVal l with
     | some hv, some lv => (queryUnescape rest).map (fun r => (hv * 16 + lv) :: r)
     | _, _ => none)
  | [37] => none
  | [37, _] => none
  | 43 :: rest => (queryUnescape rest).map (fun r => 32 :: r)
  | b :: rest => (queryUnescape rest).map (fun r => b :: r)

/-- The configuration fields the signed links use: `c.URL` and
`c.AppSecret`. -/
structure Config where
  url : Bytes
  appSecret : Bytes

/-- Source `SignedJobRoute(job, c)`:
`fmt.Sprintf("%s/jobs/%s/edit?token=%s", c.URL, job.ID,
url.QueryEscape(job.AuthSignature(c.AppSecret)))`. -/
def signedJobRoute (job : Job) (c : Config) : Bytes :=
  c.url ++ strBytes "/jobs/" ++ job.id ++ strBytes "/edit?token=" ++
    queryEscape (job.authSignature c.appSecret)

/-- Source `SignedRoleRoute(role, c)`. -/
def signedRoleRoute (role : Role) (c : Config) : Bytes :=
  c.url ++ strBytes "/roles/" ++ role.id ++ strBytes "/edit?token=" ++
    queryEscape (role.authSignature c.appSecret)

/-! ## Validation (`NewJob.Validate`) and the update handler -/

/-- Source constant `ErrNoPosition`. -/
def ErrNoPosition : Bytes := strBytes "Must provide a Position"

/-- Source constant `ErrNoOrganization`. -/
def ErrNoOrganization : Bytes := strBytes "Must provide a Organization"

/-- Source constant `ErrNoEmail`. -/
def ErrNoEmail : Bytes := strBytes "Must provide an Email Address"

/-- Source constant `ErrInvalidUrl`. -/
def ErrInvalidUrl : Bytes := strBytes "Must provide a valid Url"

/-- Source constant `ErrInvalidEmail`. -/
def ErrInvalidEmail : Bytes := strBytes "Must provide a valid Email"

/-- Source constant `ErrNoUrlOrDescription`. -/
def ErrNoUrlOrDescription : Bytes :=
  strBytes "Must provide either a Url or a Description"

/-- Success predicate of `url.ParseRequestURI`.
Modelled from the spec: the parser itself is Go library code; section 7
asks only that a malformed URL fail validation.  A request URI parses when
it is an absolute URL (`scheme:` with a leading letter in the scheme) or
an absolute path, with no spaces or ASCII control bytes. -/
def parseRequestURIOk (u : Bytes) : Bool :=
  (u.all (fun b => 32 < b && b < 128)) &&
    (u.headD 0 = 47 ||
      (u.takeWhile (fun b => b ≠ 58)).length < u.length &&
       ((65 ≤ u.headD 0 && u.headD 0 ≤ 90) || (97 ≤ u.headD 0 && u.headD 0 ≤ 122)))

/-- Success predicate of `mail.ParseAddress`.
Modelled from the spec: the parser is Go library code; section 7 asks only
that a malformed email fail validation.  An address parses when it has one
`@` with a non-empty local part and a dotted non-empty domain. -/
def parseAddressOk (e : Bytes) : Bool :=
  let local_ := e.takeWhile (fun b => b ≠ 64)
  let domain := e.drop (local_.length + 1)
  local_.length + 1 ≤ e.length && !local_.isEmpty && !domain.isEmpty &&
    domain.contains 46 && !domain.contains 64

/-- Source `NewJob.Validate(update)`: the per-field error map, built in source
order as a field-to-message list.  The URL rule: both `url` and
`description` empty is an error on `url`; a `url` with no `description`
must parse as a request URI.  Email is checked only on creation
(`update == false`). -/
def NewJob.validate (newJob : NewJob) (update : Bool) : List (Bytes × Bytes) :=
  (if newJob.position.isEmpty then [(strBytes "position", ErrNoPosition)] else []) ++
  (if newJob.organization.isEmpty then
    [(strBytes "organization", ErrNoOrganization)] else []) ++
  (if newJob.url.isEmpty && newJob.description.isEmpty then
    [(strBytes "url", ErrNoUrlOrDescription)]
   else if newJob.description.isEmpty then
    (if !parseRequestURIOk newJob.url then [(strBytes "url", ErrInvalidUrl)] else [])
   else []) ++
  (if !update then
    (if newJob.email.isEmpty then [(strBytes "email", ErrNoEmail)]
     else if !parseAddressOk newJob.email then [(strBytes "email", ErrInvalidEmail)]
     else [])
   else [])

/-- Source `Job.Save`: `UPDATE jobs SET position, organization, url, description
WHERE id` — rewrite exactly those four columns on every row whose id
matches. -/
def saveJob (job : Job) (jobs : List Job) : List Job :=
  jobs.map (fun x =>
    if x.id = job.id then
      { x with
          position := job.position
          organization := job.organization
          url := job.url
          description := job.description }
    else x)

/-- A handler's visible response. -/
inductive HandlerResult where
  | redirect (status : Nat) (location : Bytes)
  | abort (status : Nat)
deriving DecidableEq

/-- Source `Controller.UpdateJob` after a successful form bind: validate with
`update = true`; on errors, flash them and redirect 302 back to
`/jobs/{id}/edit?token={token}` without touching the store; otherwise
fetch the job (500 on backend error), apply `Update` and `Save`, and
redirect 302 home.  Returns the response and the resulting `jobs`
table. -/
def updateJob (id : Bytes) (input : NewJob) (token : Bytes)
    (jobs : List Job) (dbErr : Option Nat) : HandlerResult × List Job :=
  let errs := input.validate true
  if errs.length ≠ 0 then
    (.redirect 302 (strBytes "/jobs/" ++ id ++ strBytes "/edit?token=" ++ token),
     jobs)
  else
    match GetJob id jobs dbErr with
    | (_, some _) => (.abort 500, jobs)
    | (job, none) =>
      (.redirect 302 (strBytes "/"), saveJob (job.update input) jobs)

/-! ## Retention sweeper (the background loop in `run`) -/

/-- The two tables. -/
structure Store where
  jobs : List Job
  roles : List Role
deriving DecidableEq

/-- One pass of the hourly background loop, at a cutoff standing for
`NOW() - INTERVAL '30 DAYS'`: execute
`DELETE FROM jobs WHERE published_at < NOW() - INTERVAL '30 DAYS'` —
jobs older than the cutoff are removed; no statement touches `roles`. -/
def sweepPass (cutoff : GoTime) (db : Store) : Store :=
  { jobs := db.jobs.filter (fun j => !goTimeLt j.publishedAt cutoff)
    roles := db.roles }

/-! ## Resources, abstract over kind -/

/-- A listing of either kind. -/
inductive Resource where
  | job (j : Job)
  | role (r : Role)
deriving DecidableEq

/-- A resource's id. -/
def Resource.rid : Resource → Bytes
  | .job j => j.id
  | .role r => r.id

/-- A resource's creation timestamp. -/
def Resource.publishedAt : Resource → GoTime
  | .job j => j.publishedAt
  | .role r => r.publishedAt

/-- The canonical string a resource's `AuthSignature` feeds to the HMAC. -/
def Resource.signingInput : Resource → Bytes → Bytes
  | .job j, _ => jobSigningInput j
  | .role r, secret => roleSigningInput r secret

/-- A resource's `AuthSignature`. -/
def Resource.authSignature : Resource → Bytes → Bytes
  | .job j, secret => j.authSignature secret
  | .role r, secret => r.authSignature secret

/-- Source constant `ErrNoName`. -/
def ErrNoName : Bytes := strBytes "Must provide a Name"

/-- Source constant `ErrNoRole`. -/
def ErrNoRole : Bytes := strBytes "Must provide a Role"

/-- Source constant `ErrNoResume`. -/
def ErrNoResume : Bytes := strBytes "Must provide a Resume"

/-- Source `NewRole.Validate(update)`: the per-field error map in source order;
name, role and resume are required, email only on creation, and each of
the three link fields must parse as a request URI when present. -/
def NewRole.validate (newRole : NewRole) (update : Bool) : List (Bytes × Bytes) :=
  (if newRole.name.isEmpty then [(strBytes "name", ErrNoName)] else []) ++
  (if !update then
    (if newRole.email.isEmpty then [(strBytes "email", ErrNoEmail)]
     else if !parseAddressOk newRole.email then [(strBytes "email", ErrInvalidEmail)]
     else [])
   else []) ++
  (if newRole.role.isEmpty then [(strBytes "role", ErrNoRole)] else []) ++
  (if newRole.resume.isEmpty then [(strBytes "resume", ErrNoResume)] else []) ++
  (if !newRole.linkedin.isEmpty && !parseRequestURIOk newRole.linkedin then
    [(strBytes "linkedin", ErrInvalidUrl)] else []) ++
  (if !newRole.website.isEmpty && !parseRequestURIOk newRole.website then
    [(strBytes "website", ErrInvalidUrl)] else []) ++
  (if !newRole.github.isEmpty && !parseRequestURIOk newRole.github then
    [(strBytes "github", ErrInvalidUrl)] else [])

/-- A resource's contact email. -/
def Resource.email : Resource → Bytes
  | .job j => j.email
  | .role r => r.email

/-- Modelled from the spec: the canonical string it describes for both
kinds — "concatenating the resource's identity fields (id, email,
stringified publishedAt) with a fixed delimiter" — with no other
component. -/
def claimedSigningInput (r : Resource) : Bytes :=
  r.rid ++ colonB ++ r.email ++ colonB ++ goTimeString r.publishedAt

/-- Modelled from the spec: `sign(resource, secret)` as it describes it —
the URL-safe-base64 HMAC-SHA256, keyed by the secret, over exactly the
identity-field canonical string. -/
def claimedAuthSignature (r : Resource) (secret : Bytes) : Bytes :=
  base64url (Sha256.hmacSha256 secret (claimedSigningInput r))

/-! ## Concrete fixtures for scenario checks -/

/-- A concrete stored job. -/
def cJob : Job :=
  ⟨strBytes "1", strBytes "Pos", strBytes "Org",
   ⟨strBytes "https://devict.org", true⟩, ⟨[], false⟩,
   strBytes "a@b.com", ⟨2023, 5, 1, 12, 30, 45, 0⟩⟩

/-- A concrete stored role. -/
def cRole : Role :=
  ⟨strBytes "2", strBytes "Ada", strBytes "a@b.com", ⟨[], false⟩,
   strBytes "Developer", strBytes "My resume", ⟨[], false⟩, ⟨[], false⟩,
   ⟨[], false⟩, ⟨[], false⟩, ⟨[], false⟩, ⟨2023, 6, 2, 8, 0, 0, 0⟩⟩

/-- A concrete app secret. -/
def cSecret : Bytes := strBytes "sup"

/-- A concrete configuration. -/
def cConf : Config := ⟨strBytes "http://localhost:8080", cSecret⟩

/-- A job published long before any plausible cutoff. -/
def cOldJob : Job :=
  ⟨strBytes "3", strBytes "Old Pos", strBytes "Old Org",
   ⟨[], false⟩, ⟨strBytes "desc", true⟩,
   strBytes "old@b.com", ⟨2020, 1, 1, 0, 0, 0, 0⟩⟩

/-- A role published long before any plausible cutoff. -/
def cOldRole : Role :=
  ⟨strBytes "4", strBytes "Old Name", strBytes "old@b.com", ⟨[], false⟩,
   strBytes "Old Role", strBytes "Old resume", ⟨[], false⟩, ⟨[], false⟩,
   ⟨[], false⟩, ⟨[], false⟩, ⟨[], false⟩, ⟨2020, 1, 1, 0, 0, 0, 0⟩⟩

/-- A valid job-update payload. -/
def cNewJob : NewJob :=
  ⟨strBytes "New Pos", strBytes "New Org", [], strBytes "Great place", []⟩

/-- A valid role-update payload. -/
def cNewRole : NewRole :=
  ⟨strBytes "Ada L.", [], [], strBytes "Engineer", strBytes "Updated resume",
   [], [], [], [], []⟩

/-! ## Lemmas about the comparisons -/

theorem lor_eq_zero_iff (a b : Nat) : a ||| b = 0 ↔ a = 0 ∧ b = 0 := by
  constructor
  · intro h
    refine ⟨?_, ?_⟩ <;> apply Nat.eq_of_testBit_eq <;> intro i <;>
      have h2 := congrArg (fun n => n.testBit i) h <;>
      simp only [Nat.testBit_lor, Nat.zero_testBit, Bool.or_eq_false_iff] at h2
    · simp [h2.1]
    · simp [h2.2]
  · rintro ⟨rfl, rfl⟩; rfl

theorem foldlOrXor_eq_zero (l : List (Nat × Nat)) (acc : Nat) :
    l.foldl (fun v p => v ||| (p.1 ^^^ p.2)) acc = 0 ↔
      acc = 0 ∧ ∀ p ∈ l, p.1 = p.2 := by
  induction l generalizing acc with
  | nil => simp
  | cons hd tl ih =>
    simp only [List.foldl_cons, ih, lor_eq_zero_iff, Nat.xor_eq_zero,
      List.mem_cons, and_assoc]
    constructor
    · rintro ⟨h1, h2, h3⟩
      exact ⟨h1, fun p hp => hp.elim (fun e => e ▸ h2) (h3 p)⟩
    · rintro ⟨h1, h2⟩
      exact ⟨h1, h2 hd (Or.inl rfl), fun p hp => h2 p (Or.inr hp)⟩

theorem eq_of_zip_eq : ∀ (x y : List Nat), x.length = y.length →
    (∀ p ∈ x.zip y, p.1 = p.2) → x = y
  | [], [], _, _ => rfl
  | a :: x, b :: y, hl, hp => by
    have hab : a = b := hp (a, b) (by simp)
    have hxy : x = y := eq_of_zip_eq x y (by simpa using hl)
      (fun p h => hp p (by simp [h]))
    rw [hab, hxy]

theorem zip_self_fst_eq_snd (x : List Nat) (p : Nat × Nat)
    (hp : p ∈ x.zip x) : p.1 = p.2 := by
  induction x with
  | nil => simp at hp
  | cons a x ih =>
    rcases List.mem_cons.mp hp with h | h
    · rw [h]
    · exact ih h

/-- Go's `subtle.ConstantTimeCompare` answers 1 exactly on equal byte
strings. -/
theorem constantTimeCompare_eq_one_iff (x y : Bytes) :
    constantTimeCompare x y = 1 ↔ x = y := by
  unfold constantTimeCompare
  rcases Decidable.em (x.length = y.length) with hl | hl
  · rw [if_neg (by simpa using hl)]
    rcases Decidable.em
      ((x.zip y).foldl (fun v p => v ||| (p.1 ^^^ p.2)) 0 = 0) with hz | hz
    · rw [if_pos hz]
      have hall := (foldlOrXor_eq_zero _ 0).mp hz
      exact iff_of_true rfl (eq_of_zip_eq x y hl hall.2)
    · rw [if_neg hz]
      refine iff_of_false (by simp) ?_
      rintro rfl
      exact hz ((foldlOrXor_eq_zero _ 0).mpr
        ⟨rfl, fun p hp => zip_self_fst_eq_snd x p hp⟩)
  · rw [if_pos (by simpa using hl)]
    exact iff_of_false (by simp) (by rintro rfl; exact hl rfl)

theorem constantTimeCompare_zero_or_one (x y : Bytes) :
    constantTimeCompare x y = 0 ∨ constantTimeCompare x y = 1 := by
  unfold constantTimeCompare
  split
  · exact Or.inl rfl
  · split
    · exact Or.inr rfl
    · exact Or.inl rfl

theorem constantTimeCompare_self (x : Bytes) : constantTimeCompare x x = 1 :=
  (constantTimeCompare_eq_one_iff x x).mpr rfl

theorem constantTimeCompare_ne (x y : Bytes) (h : x ≠ y) :
    constantTimeCompare x y = 0 := by
  rcases constantTimeCompare_zero_or_one x y with h0 | h1
  · exact h0
  · exact absurd ((constantTimeCompare_eq_one_iff x y).mp h1) h

/-! ## Round trip of query escaping -/

theorem hexVal_hexUpper : ∀ n < 16, hexVal (hexUpper n) = some n := by decide

theorem queryUnescape_escapeByte (b : Nat) (hb : b < 256) (rest : Bytes) :
    queryUnescape (escapeByte b ++ rest) =
      (queryUnescape rest).map (fun r => b :: r) := by
  by_cases hu : isUnreservedQueryByte b
  · have h37 : ¬b = 37 := fun he => absurd (he ▸ hu) (by decide)
    have h43 : ¬b = 43 := fun he => absurd (he ▸ hu) (by decide)
    rw [escapeByte, if_pos hu]
    show queryUnescape (b :: rest) = _
    simp [queryUnescape, h37, h43]
  · rw [escapeByte, if_neg hu]
    by_cases h32 : b = 32
    · subst h32
      rw [if_pos rfl]
      rfl
    · rw [if_neg h32]
      have hhi : b >>> 4 < 16 := by
        rw [Nat.shiftRight_eq_div_pow]
        omega
      have hlo : b % 16 < 16 := Nat.mod_lt _ (by norm_num)
      have hb16 : b >>> 4 * 16 + b % 16 = b := by
        rw [Nat.shiftRight_eq_div_pow]
        omega
      have step : queryUnescape (37 :: hexUpper (b >>> 4) :: hexUpper (b % 16) :: rest) =
          (match hexVal (hexUpper (b >>> 4)), hexVal (hexUpper (b % 16)) with
           | some hv, some lv => (queryUnescape rest).map (fun r => (hv * 16 + lv) :: r)
           | _, _ => none) := rfl
      show queryUnescape (37 :: hexUpper (b >>> 4) :: hexUpper (b % 16) :: rest) = _
      rw [step, hexVal_hexUpper _ hhi, hexVal_hexUpper _ hlo]
      show (queryUnescape rest).map (fun r => (b >>> 4 * 16 + b % 16) :: r) = _
      simp only [hb16]

/-- Decoding with `QueryUnescape` inverts `QueryEscape` on byte strings: the decoded
query parameter is exactly the value that was embedded. -/
theorem queryUnescape_queryEscape (s : Bytes) (hs : ∀ b ∈ s, b < 256) :
    queryUnescape (queryEscape s) = some s := by
  induction s with
  | nil => rfl
  | cons b t ih =>
    have hb : b < 256 := hs b (by simp)
    have ht : ∀ c ∈ t, c < 256 := fun c hc => hs c (by simp [hc])
    have hesc : queryEscape (b :: t) = escapeByte b ++ queryEscape t := by
      simp [queryEscape]
    rw [hesc, queryUnescape_escapeByte b hb, ih ht]
    rfl

theorem b64urlChar_lt (i : Nat) : b64urlChar i < 256 := by
  unfold b64urlChar
  repeat' split
  all_goals omega

theorem base64url_lt (l : Bytes) : ∀ b ∈ base64url l, b < 256 := by
  induction l using base64url.induct with
  | case1 a b c rest ih =>
    intro x hx
    simp only [base64url, List.mem_cons] at hx
    rcases hx with rfl | rfl | rfl | rfl | h
    · exact b64urlChar_lt _
    · exact b64urlChar_lt _
    · exact b64urlChar_lt _
    · exact b64urlChar_lt _
    · exact ih x h
  | case2 a b =>
    intro x hx
    simp only [base64url, List.mem_cons] at hx
    rcases hx with rfl | rfl | rfl | rfl | h
    · exact b64urlChar_lt _
    · exact b64urlChar_lt _
    · exact b64urlChar_lt _
    · omega
    · simp at h
  | case3 a =>
    intro x hx
    simp only [base64url, List.mem_cons] at hx
    rcases hx with rfl | rfl | rfl | rfl | h
    · exact b64urlChar_lt _
    · exact b64urlChar_lt _
    · omega
    · omega
    · simp at h
  | case4 =>
    intro x hx
    simp [base64url] at hx

/-! ## Lemmas about the store -/

theorem find?_some_id {jobs : List Job} {id : Bytes} {job : Job}
    (h : jobs.find? (fun j => j.id = id) = some job) : job.id = id := by
  have hp := List.find?_some h
  exact of_decide_eq_true hp

theorem find?_some_rid {roles : List Role} {id : Bytes} {role : Role}
    (h : roles.find? (fun r => r.id = id) = some role) : role.id = id := by
  have hp := List.find?_some h
  exact of_decide_eq_true hp

theorem GetJob_found {jobs : List Job} {id : Bytes} {job : Job}
    (h : jobs.find? (fun j => j.id = id) = some job) :
    GetJob id jobs none = (job, none) := by
  unfold GetJob dbGetJob
  rw [h]

theorem GetRole_found {roles : List Role} {id : Bytes} {role : Role}
    (h : roles.find? (fun r => r.id = id) = some role) :
    GetRole id roles none = (role, none) := by
  unfold GetRole dbGetRole
  rw [h]

theorem GetJob_missing {jobs : List Job} {id : Bytes}
    (h : ∀ j ∈ jobs, j.id ≠ id) : GetJob id jobs none = (zeroJob, none) := by
  unfold GetJob dbGetJob
  rw [List.find?_eq_none.mpr (by simpa using h)]

theorem GetRole_missing {roles : List Role} {id : Bytes}
    (h : ∀ r ∈ roles, r.id ≠ id) : GetRole id roles none = (zeroRole, none) := by
  unfold GetRole dbGetRole
  rw [List.find?_eq_none.mpr (by simpa using h)]

/-- C10: on a missed lookup both accessors swallow `sql.ErrNoRows`,
returning the zero record together with a nil error; any other backend
error is passed through to the caller. -/
theorem c10_get_swallows_no_rows :
    (∀ (id : Bytes) (jobs : List Job), (∀ j ∈ jobs, j.id ≠ id) →
      GetJob id jobs none = (zeroJob, none)) ∧
    (∀ (id : Bytes) (jobs : List Job) (e : Nat),
      GetJob id jobs (some e) = (zeroJob, some e)) ∧
    (∀ (id : Bytes) (roles : List Role), (∀ r ∈ roles, r.id ≠ id) →
      GetRole id roles none = (zeroRole, none)) ∧
    (∀ (id : Bytes) (roles : List Role) (e : Nat),
      GetRole id roles (some e) = (zeroRole, some e)) :=
  ⟨fun _ _ h => GetJob_missing h, fun _ _ _ => rfl,
   fun _ _ h => GetRole_missing h, fun _ _ _ => rfl⟩

/-- Witness for C10 at concrete inputs: an unknown id yields the zero
record and no error; an injected backend error is returned. -/
theorem c10_get_swallows_no_rows_witness :
    GetJob (strBytes "9") [cJob] none = (zeroJob, none) ∧
    GetJob (strBytes "9") [cJob] (some 7) = (zeroJob, some 7) ∧
    GetRole (strBytes "9") [cRole] none = (zeroRole, none) ∧
    GetRole (strBytes "9") [cRole] (some 7) = (zeroRole, some 7) :=
  ⟨c10_get_swallows_no_rows.1 _ [cJob] (by decide),
   c10_get_swallows_no_rows.2.1 _ [cJob] 7,
   c10_get_swallows_no_rows.2.2.1 _ [cRole] (by decide),
   c10_get_swallows_no_rows.2.2.2 _ [cRole] 7⟩

/-! ## Middleware behaviour -/

/-- C2: when the path id resolves to a stored resource of either kind,
every token other than that resource's own signature is rejected with
HTTP 403. -/
theorem c2_wrong_token_rejected :
    (∀ (jobs : List Job) (roles : List Role) (secret id token : Bytes)
      (job : Job), jobs.find? (fun j => j.id = id) = some job →
      token ≠ job.authSignature secret →
      requireTokenAuth jobs roles secret JobRoute id token none = .abort 403) ∧
    (∀ (jobs : List Job) (roles : List Role) (secret id token : Bytes)
      (role : Role), roles.find? (fun r => r.id = id) = some role →
      token ≠ role.authSignature secret →
      requireTokenAuth jobs roles secret RoleRoute id token none = .abort 403) := by
  constructor
  · intro jobs roles secret id token job hfind hne
    have hid : job.id = id := find?_some_id hfind
    subst hid
    unfold requireTokenAuth
    rw [if_pos rfl, GetJob_found hfind]
    simp only [ne_eq, not_true_eq_false, if_false,
      constantTimeCompare_ne _ _ (Ne.symm hne), if_pos rfl]
    exact if_pos trivial
  · intro jobs roles secret id token role hfind hne
    have hid : role.id = id := find?_some_rid hfind
    subst hid
    unfold requireTokenAuth
    rw [if_neg (by decide), if_pos rfl, GetRole_found hfind]
    simp only [ne_eq, not_true_eq_false, if_false,
      constantTimeCompare_ne _ _ (Ne.symm hne), if_pos rfl]
    exact if_pos trivial

/-- Witness for C2: a stored job and role each reject the token
`"wrong"` with 403. -/
theorem c2_wrong_token_rejected_witness :
    requireTokenAuth [cJob] [cRole] cSecret JobRoute (strBytes "1")
      (strBytes "wrong") none = .abort 403 ∧
    requireTokenAuth [cJob] [cRole] cSecret RoleRoute (strBytes "2")
      (strBytes "wrong") none = .abort 403 :=
  ⟨c2_wrong_token_rejected.1 [cJob] [cRole] cSecret (strBytes "1")
      (strBytes "wrong") cJob (by decide) (by decide),
   c2_wrong_token_rejected.2 [cJob] [cRole] cSecret (strBytes "2")
      (strBytes "wrong") cRole (by decide) (by decide)⟩

/-- C1: the signed edit link carries exactly the query-escaped signature
as its token; standard query decoding returns that signature; and
presenting it to the middleware for the stored job passes the check. -/
theorem c1_signed_link_round_trip :
    ∀ (jobs : List Job) (roles : List Role) (c : Config) (job : Job),
      jobs.find? (fun j => j.id = job.id) = some job →
      signedJobRoute job c =
        c.url ++ strBytes "/jobs/" ++ job.id ++ strBytes "/edit?token=" ++
          queryEscape (job.authSignature c.appSecret) ∧
      queryUnescape (queryEscape (job.authSignature c.appSecret)) =
        some (job.authSignature c.appSecret) ∧
      requireTokenAuth jobs roles c.appSecret JobRoute job.id
        (job.authSignature c.appSecret) none = .proceed := by
  intro jobs roles c job hfind
  refine ⟨rfl, queryUnescape_queryEscape _ (base64url_lt _), ?_⟩
  unfold requireTokenAuth
  rw [if_pos rfl, GetJob_found hfind]
  simp [constantTimeCompare_self]

/-- Witness for C1: the one stored job follows its own signed link
successfully. -/
theorem c1_signed_link_round_trip_witness :
    signedJobRoute cJob cConf =
      cConf.url ++ strBytes "/jobs/" ++ cJob.id ++ strBytes "/edit?token=" ++
        queryEscape (cJob.authSignature cConf.appSecret) ∧
    queryUnescape (queryEscape (cJob.authSignature cConf.appSecret)) =
      some (cJob.authSignature cConf.appSecret) ∧
    requireTokenAuth [cJob] [] cConf.appSecret JobRoute cJob.id
      (cJob.authSignature cConf.appSecret) none = .proceed :=
  c1_signed_link_round_trip [cJob] [] cConf cJob (by decide)

/-- C4 (amended): `requireTokenAuth` fails closed — a path id matching no
stored resource of the route's kind is answered 404 for every candidate
token, with no signature comparison performed. -/
theorem c4_unknown_id_fails_closed :
    ∀ (jobs : List Job) (roles : List Role) (secret id token : Bytes),
      id ≠ [] → (∀ j ∈ jobs, j.id ≠ id) → (∀ r ∈ roles, r.id ≠ id) →
      requireTokenAuth jobs roles secret JobRoute id token none = .abort 404 ∧
      requireTokenAuth jobs roles secret RoleRoute id token none = .abort 404 ∧
      requireTokenAuthCmpSteps jobs roles secret JobRoute id token none = 0 ∧
      requireTokenAuthCmpSteps jobs roles secret RoleRoute id token none = 0 := by
  intro jobs roles secret id token hid hj hr
  have hzj : zeroJob.id ≠ id := fun he => hid he.symm
  have hzr : zeroRole.id ≠ id := fun he => hid he.symm
  refine ⟨?_, ?_, ?_, ?_⟩
  · unfold requireTokenAuth
    rw [if_pos rfl, GetJob_missing hj]
    exact if_pos hzj
  · unfold requireTokenAuth
    rw [if_neg (by decide), if_pos rfl, GetRole_missing hr]
    exact if_pos hzr
  · unfold requireTokenAuthCmpSteps
    rw [if_pos rfl, GetJob_missing hj]
    exact if_pos hzj
  · unfold requireTokenAuthCmpSteps
    rw [if_neg (by decide), if_pos rfl, GetRole_missing hr]
    exact if_pos hzr

/-- Witness for C4 (amended): an id stored nowhere is answered 404 on
both routes without a signature comparison. -/
theorem c4_unknown_id_fails_closed_witness :
    requireTokenAuth [cJob] [cRole] cSecret JobRoute (strBytes "9")
      (strBytes "anything") none = .abort 404 ∧
    requireTokenAuth [cJob] [cRole] cSecret RoleRoute (strBytes "9")
      (strBytes "anything") none = .abort 404 ∧
    requireTokenAuthCmpSteps [cJob] [cRole] cSecret JobRoute (strBytes "9")
      (strBytes "anything") none = 0 ∧
    requireTokenAuthCmpSteps [cJob] [cRole] cSecret RoleRoute (strBytes "9")
      (strBytes "anything") none = 0 :=
  c4_unknown_id_fails_closed [cJob] [cRole] cSecret (strBytes "9")
    (strBytes "anything") (by decide) (by decide) (by decide)

/-- C4 (counterexample): the earlier `requireAuth` middleware, as wired on
`/jobs/:id/edit` and `POST /jobs/:id`, answers an id matching no stored
resource with 403 — comparing the token against the zero record's
signature — not with 404 as the claim states. -/
theorem c4_requireAuth_403_on_unknown_id :
    requireAuth [] cSecret (strBytes "9") (strBytes "anything") none =
      .abort 403 ∧
    requireAuth [] cSecret (strBytes "9") (strBytes "anything") none ≠
      .abort 404 := by
  constructor
  · decide
  · decide

/-! ## Update and validation -/

/-- C6: `Update` (for both kinds, on any payload that validates for an
update) rewrites only the mutable display fields — id, email and
publishedAt are untouched, so the capability signature is unchanged. -/
theorem c6_update_preserves_signature :
    (∀ (job : Job) (p : NewJob) (secret : Bytes), p.validate true = [] →
      (job.update p).id = job.id ∧ (job.update p).email = job.email ∧
      (job.update p).publishedAt = job.publishedAt ∧
      (job.update p).authSignature secret = job.authSignature secret) ∧
    (∀ (role : Role) (p : NewRole) (secret : Bytes), p.validate true = [] →
      (role.update p).id = role.id ∧ (role.update p).email = role.email ∧
      (role.update p).publishedAt = role.publishedAt ∧
      (role.update p).authSignature secret = role.authSignature secret) :=
  ⟨fun _ _ _ _ => ⟨rfl, rfl, rfl, rfl⟩, fun _ _ _ _ => ⟨rfl, rfl, rfl, rfl⟩⟩

/-- Witness for C6 at a concrete job, role and payloads that pass update
validation. -/
theorem c6_update_preserves_signature_witness :
    (cJob.update cNewJob).authSignature cSecret = cJob.authSignature cSecret ∧
    (cRole.update cNewRole).authSignature cSecret = cRole.authSignature cSecret :=
  ⟨(c6_update_preserves_signature.1 cJob cNewJob cSecret (by decide)).2.2.2,
   (c6_update_preserves_signature.2 cRole cNewRole cSecret (by decide)).2.2.2⟩

/-- C5 (amended): for a Job the signature is exactly the HMAC-SHA256,
URL-safe-base64, of the identity canonical string the claim describes;
for a Role the hashed string additionally ends with `":" ++ secret`. -/
theorem c5_signature_definition :
    (∀ (job : Job) (secret : Bytes),
      Resource.authSignature (.job job) secret =
        claimedAuthSignature (.job job) secret) ∧
    (∀ (role : Role) (secret : Bytes),
      Resource.authSignature (.role role) secret =
        base64url (Sha256.hmacSha256 secret
          (claimedSigningInput (.role role) ++ colonB ++ secret))) :=
  ⟨fun _ _ => rfl, fun _ _ => rfl⟩

/-- C5 (counterexample): at a concrete role and secret the implemented
signature differs from the claim's formula, because `Role.AuthSignature`
concatenates the secret into the canonical string as a fourth segment. -/
theorem c5_role_signature_not_as_claimed :
    Resource.authSignature (.role cRole) cSecret ≠
      claimedAuthSignature (.role cRole) cSecret := by
  decide

/-- Witness for C5 (amended) at a concrete job and role. -/
theorem c5_signature_definition_witness :
    Resource.authSignature (.job cJob) cSecret =
      claimedAuthSignature (.job cJob) cSecret ∧
    Resource.authSignature (.role cRole) cSecret =
      base64url (Sha256.hmacSha256 cSecret
        (claimedSigningInput (.role cRole) ++ colonB ++ cSecret)) :=
  ⟨c5_signature_definition.1 cJob cSecret, c5_signature_definition.2 cRole cSecret⟩

/-- C8: a job-update submission with both url and description empty fails
validation with "Must provide either a Url or a Description", and the
handler redirects 302 back to the edit form leaving the jobs table
untouched — no write reaches storage. -/
theorem c8_update_validation_atomic :
    ∀ (id : Bytes) (input : NewJob) (token : Bytes) (jobs : List Job)
      (dbErr : Option Nat), input.url = [] → input.description = [] →
      (strBytes "url", ErrNoUrlOrDescription) ∈ input.validate true ∧
      updateJob id input token jobs dbErr =
        (.redirect 302 (strBytes "/jobs/" ++ id ++ strBytes "/edit?token=" ++ token),
         jobs) := by
  intro id input token jobs dbErr hurl hdesc
  have hmem : (strBytes "url", ErrNoUrlOrDescription) ∈ input.validate true := by
    unfold NewJob.validate
    rw [hurl, hdesc]
    simp
  refine ⟨hmem, ?_⟩
  have hlen : (input.validate true).length ≠ 0 := by
    intro h0
    rw [List.length_eq_zero] at h0
    rw [h0] at hmem
    simp at hmem
  unfold updateJob
  rw [if_pos hlen]

/-- Witness for C8 at a concrete submission with empty url and
description. -/
theorem c8_update_validation_atomic_witness :
    (strBytes "url", ErrNoUrlOrDescription) ∈
      (NewJob.mk (strBytes "Pos") (strBytes "Org") [] [] []).validate true ∧
    updateJob (strBytes "1") (NewJob.mk (strBytes "Pos") (strBytes "Org") [] [] [])
      (strBytes "tok") [cJob] none =
      (.redirect 302
        (strBytes "/jobs/" ++ strBytes "1" ++ strBytes "/edit?token=" ++ strBytes "tok"),
       [cJob]) :=
  c8_update_validation_atomic (strBytes "1") _ (strBytes "tok") [cJob] none rfl rfl

/-! ## Retention sweep -/

/-- C9 (amended): one sweeper pass keeps exactly the jobs at or after the
cutoff — deleting every job older than it — and never touches the roles
table. -/
theorem c9_sweep_deletes_only_old_jobs :
    ∀ (cutoff : GoTime) (db : Store),
      (∀ j : Job, j ∈ (sweepPass cutoff db).jobs ↔
        j ∈ db.jobs ∧ goTimeLt j.publishedAt cutoff = false) ∧
      (sweepPass cutoff db).roles = db.roles := by
  intro cutoff db
  constructor
  · intro j
    simp [sweepPass, List.mem_filter]
  · rfl

/-- Witness for C9 (amended): with one fresh and one expired job, the
pass deletes exactly the expired one and leaves the roles list alone. -/
theorem c9_sweep_deletes_only_old_jobs_witness :
    (cJob ∈ (sweepPass ⟨2023, 4, 1, 0, 0, 0, 0⟩
        ⟨[cJob, cOldJob], [cRole]⟩).jobs ↔
      cJob ∈ [cJob, cOldJob] ∧
        goTimeLt cJob.publishedAt ⟨2023, 4, 1, 0, 0, 0, 0⟩ = false) ∧
    (sweepPass ⟨2023, 4, 1, 0, 0, 0, 0⟩ ⟨[cJob, cOldJob], [cRole]⟩).roles =
      [cRole] :=
  ⟨(c9_sweep_deletes_only_old_jobs ⟨2023, 4, 1, 0, 0, 0, 0⟩
      ⟨[cJob, cOldJob], [cRole]⟩).1 cJob,
   (c9_sweep_deletes_only_old_jobs ⟨2023, 4, 1, 0, 0, 0, 0⟩
      ⟨[cJob, cOldJob], [cRole]⟩).2⟩

/-- C9 (counterexample): a role published long before the cutoff survives
the sweeper pass untouched — the pass only ever deletes from `jobs`, so
expired roles are not purged as the claim states. -/
theorem c9_expired_role_survives_sweep :
    goTimeLt cOldRole.publishedAt ⟨2023, 4, 1, 0, 0, 0, 0⟩ = true ∧
    sweepPass ⟨2023, 4, 1, 0, 0, 0, 0⟩ ⟨[], [cOldRole]⟩ = ⟨[], [cOldRole]⟩ := by
  constructor
  · decide
  · decide

/-! ## Timing of the token comparison -/

theorem ctcSteps_content_free (x t t' : Bytes) (h : t.length = t'.length) :
    ctcSteps x t = ctcSteps x t' := by
  unfold ctcSteps
  rw [h, List.length_zip, List.length_zip, h]

/-- C3 (amended): in `requireTokenAuth` the number of byte positions the
token comparison examines depends only on the candidate token's length,
never on its content — the behaviour of `subtle.ConstantTimeCompare`.  (The
earlier `requireAuth` middleware compared with Go's short-circuiting
string inequality instead; see the counterexample.) -/
theorem c3_requireTokenAuth_constant_time :
    ∀ (jobs : List Job) (roles : List Role) (secret authType id t t' : Bytes)
      (dbErr : Option Nat), t.length = t'.length →
      requireTokenAuthCmpSteps jobs roles secret authType id t dbErr =
        requireTokenAuthCmpSteps jobs roles secret authType id t' dbErr := by
  intro jobs roles secret authType id t t' dbErr hlen
  unfold requireTokenAuthCmpSteps
  by_cases hj : authType = JobRoute
  · rw [if_pos hj, if_pos hj]
    rcases GetJob id jobs dbErr with ⟨job, _ | e⟩
    · show (if job.id ≠ id then 0 else ctcSteps (job.authSignature secret) t) =
        (if job.id ≠ id then 0 else ctcSteps (job.authSignature secret) t')
      by_cases hid : job.id ≠ id
      · rw [if_pos hid, if_pos hid]
      · rw [if_neg hid, if_neg hid]
        exact ctcSteps_content_free _ t t' hlen
    · rfl
  · rw [if_neg hj, if_neg hj]
    by_cases hr : authType = RoleRoute
    · rw [if_pos hr, if_pos hr]
      rcases GetRole id roles dbErr with ⟨role, _ | e⟩
      · show (if role.id ≠ id then 0 else ctcSteps (role.authSignature secret) t) =
          (if role.id ≠ id then 0 else ctcSteps (role.authSignature secret) t')
        by_cases hid : role.id ≠ id
        · rw [if_pos hid, if_pos hid]
        · rw [if_neg hid, if_neg hid]
          exact ctcSteps_content_free _ t t' hlen
      · rfl
    · rw [if_neg hr, if_neg hr]

/-- Witness for C3 (amended): two same-length candidate tokens for a
stored job cost the same number of examined byte positions. -/
theorem c3_requireTokenAuth_constant_time_witness :
    requireTokenAuthCmpSteps [cJob] [] cSecret JobRoute (strBytes "1")
      (strBytes "aaaaaaaaaaaaaaaaaaaaaaaaaaaaaaaaaaaaaaaaaaaa") none =
    requireTokenAuthCmpSteps [cJob] [] cSecret JobRoute (strBytes "1")
      (strBytes "bbbbbbbbbbbbbbbbbbbbbbbbbbbbbbbbbbbbbbbbbbbb") none :=
  c3_requireTokenAuth_constant_time [cJob] [] cSecret JobRoute (strBytes "1")
    (strBytes "aaaaaaaaaaaaaaaaaaaaaaaaaaaaaaaaaaaaaaaaaaaa")
    (strBytes "bbbbbbbbbbbbbbbbbbbbbbbbbbbbbbbbbbbbbbbbbbbb") none rfl

/-- C3 (counterexample): the earlier `requireAuth` middleware compares
with Go's short-circuiting string inequality: for the stored job's true
signature `aNzrNs24SrnkbTlYE15aydVyeWhtSaXlM-NYKkqq9h8=`, two wrong
tokens of equal length — one tampered in the first byte, one in the last —
cost it different numbers of examined byte positions, so its comparison
is not constant-time. -/
theorem c3_requireAuth_short_circuits :
    (strBytes "bNzrNs24SrnkbTlYE15aydVyeWhtSaXlM-NYKkqq9h8=").length =
      (strBytes "aNzrNs24SrnkbTlYE15aydVyeWhtSaXlM-NYKkqq9h80").length ∧
    requireAuthCmpSteps [cJob] cSecret (strBytes "1")
      (strBytes "bNzrNs24SrnkbTlYE15aydVyeWhtSaXlM-NYKkqq9h8=") none ≠
    requireAuthCmpSteps [cJob] cSecret (strBytes "1")
      (strBytes "aNzrNs24SrnkbTlYE15aydVyeWhtSaXlM-NYKkqq9h80") none := by
  constructor
  · decide
  · decide

/-! ## Distinct canonical strings -/

theorem takeWhile_until_colon (a t : Bytes) (h : ∀ b ∈ a, b ≠ 58) :
    (a ++ 58 :: t).takeWhile (fun b => b != 58) = a := by
  induction a with
  | nil => simp [List.takeWhile_cons]
  | cons x a ih =>
    have hx : x ≠ 58 := h x (by simp)
    simp only [List.cons_append, List.takeWhile_cons, bne_iff_ne, ne_eq, hx,
      not_false_eq_true, if_true, decide_not]
    rw [List.cons_inj_right]
    exact ih (fun b hb => h b (by simp [hb]))

theorem signingInput_shape (r : Resource) (secret : Bytes) :
    ∃ t, r.signingInput secret = r.rid ++ 58 :: t := by
  cases r with
  | job j =>
    refine ⟨j.email ++ 58 :: goTimeString j.publishedAt, ?_⟩
    simp [Resource.signingInput, Resource.rid, jobSigningInput, colonB,
      strBytes, List.append_assoc]
  | role r =>
    refine ⟨r.email ++ 58 :: (goTimeString r.publishedAt ++ 58 :: secret), ?_⟩
    simp [Resource.signingInput, Resource.rid, roleSigningInput, colonB,
      strBytes, List.append_assoc]

/-- C7: two resources with distinct all-digit ids (as the SERIAL primary
keys are) and distinct creation timestamps — of the same kind or across
kinds — feed distinct canonical strings to the HMAC. -/
theorem c7_canonical_strings_distinct :
    ∀ (r1 r2 : Resource) (secret : Bytes),
      (∀ b ∈ r1.rid, 48 ≤ b ∧ b ≤ 57) → (∀ b ∈ r2.rid, 48 ≤ b ∧ b ≤ 57) →
      r1.rid ≠ r2.rid → r1.publishedAt ≠ r2.publishedAt →
      r1.signingInput secret ≠ r2.signingInput secret := by
  intro r1 r2 secret h1 h2 hid _htime heq
  apply hid
  obtain ⟨t1, e1⟩ := signingInput_shape r1 secret
  obtain ⟨t2, e2⟩ := signingInput_shape r2 secret
  have k1 := takeWhile_until_colon r1.rid t1
    (fun b hb => by have := h1 b hb; omega)
  have k2 := takeWhile_until_colon r2.rid t2
    (fun b hb => by have := h2 b hb; omega)
  calc r1.rid
      = ((r1.signingInput secret).takeWhile (fun b => b != 58)) := by
        rw [e1, k1]
    _ = ((r2.signingInput secret).takeWhile (fun b => b != 58)) := by rw [heq]
    _ = r2.rid := by rw [e2, k2]

/-- Witness for C7: a concrete job and role with distinct digit ids and
distinct timestamps have distinct canonical strings (and indeed distinct
signatures). -/
theorem c7_canonical_strings_distinct_witness :
    Resource.signingInput (.job cJob) cSecret ≠
      Resource.signingInput (.role cRole) cSecret ∧
    Resource.authSignature (.job cJob) cSecret ≠
      Resource.authSignature (.role cRole) cSecret := by
  constructor
  · exact c7_canonical_strings_distinct (.job cJob) (.role cRole) cSecret
      (by decide) (by decide) (by decide) (by decide)
  · decide
